import Mathlib

/-!
Verification development for the per-guild music queue and playback engine
of the xdBot repository.

The first half embeds `QueueManager` (src/utils/music_queue.py), projected
to a single guild: the per-guild dictionaries `queues` / `current_index` /
`loop_mode` become one record.  Tracks are identified by natural-number
ids; the Python `current_index` is an unbounded signed integer, so it is
modelled as `Int` (Python's `%` on a positive modulus agrees with
`Int.emod`, which is what `%` means on `Int` here).
-/

structure QMState where
  queue : List Nat
  currentIndex : Int
  loopMode : Nat
  deriving Repr, DecidableEq

def QMState.init : QMState := ⟨[], 0, 0⟩

/-- Python list indexing `l[i]` (a negative index counts from the end);
`none` where Python would raise `IndexError`. -/
def pyIndex (l : List Nat) (i : Int) : Option Nat :=
  if 0 ≤ i then l[i.toNat]?
  else if 0 ≤ i + l.length then l[(i + l.length).toNat]?
  else none

/-- Python `list.pop(i)` for a nonnegative index: the removed element and
the remaining list; `none` where Python would raise `IndexError`. -/
def pyPop (l : List Nat) (i : Nat) : Option (Nat × List Nat) :=
  match l[i]? with
  | some x => some (x, l.eraseIdx i)
  | none => none

/-- `QueueManager.add_to_queue`: append the track, return the 1-based
position (the new length).  (The timer interaction is modelled separately
in `EngState`.) -/
def add_to_queue (s : QMState) (track : Nat) : QMState × Int :=
  let q := s.queue ++ [track]
  ({ s with queue := q }, (q.length : Int))

/-- `QueueManager.add_multiple_to_queue`: extend the queue, return the
number of tracks added. -/
def add_multiple_to_queue (s : QMState) (tracks : List Nat) : QMState × Int :=
  ({ s with queue := s.queue ++ tracks }, (tracks.length : Int))

/-- `QueueManager.remove_from_queue`: remove by 0-based position, adjusting
`current_index`; `none` when the position is out of range. -/
def remove_from_queue (s : QMState) (position : Int) : QMState × Option Nat :=
  if position < 0 ∨ (s.queue.length : Int) ≤ position then (s, none)
  else
    match pyPop s.queue position.toNat with
    | none => (s, none)      -- unreachable: position is in range
    | some (removed, q) =>
      let newIdx : Int :=
        if position < s.currentIndex then max 0 (s.currentIndex - 1)
        else if (q.length : Int) ≤ s.currentIndex then max 0 ((q.length : Int) - 1)
        else s.currentIndex
      ({ s with queue := q, currentIndex := newIdx }, some removed)

/-- `QueueManager.clear_queue`: keep only the current track (when the index
is in range), reset the index to 0, return the number removed. -/
def clear_queue (s : QMState) : QMState × Nat :=
  let currentTrack : Option Nat :=
    if 0 ≤ s.currentIndex ∧ s.currentIndex < (s.queue.length : Int) then
      pyIndex s.queue s.currentIndex
    else none
  match currentTrack with
  | some t => ({ s with queue := [t], currentIndex := 0 }, s.queue.length - 1)
  | none => ({ s with queue := [], currentIndex := 0 }, s.queue.length)

/-- `QueueManager.move_in_queue`: pop `from_pos`, insert at `to_pos`,
adjust the index; refuses out-of-range positions and moving the
currently-playing index. -/
def move_in_queue (s : QMState) (fromPos toPos : Int) : QMState × Bool :=
  if fromPos < 0 ∨ (s.queue.length : Int) ≤ fromPos ∨
      toPos < 0 ∨ (s.queue.length : Int) ≤ toPos then
    (s, false)
  else if fromPos = s.currentIndex then (s, false)
  else
    match pyPop s.queue fromPos.toNat with
    | none => (s, false)     -- unreachable: fromPos is in range
    | some (track, q1) =>
      let q2 := q1.insertIdx toPos.toNat track
      let newIdx : Int :=
        if fromPos < s.currentIndex ∧ s.currentIndex ≤ toPos then s.currentIndex - 1
        else if s.currentIndex < fromPos ∧ toPos ≤ s.currentIndex then s.currentIndex + 1
        else s.currentIndex
      ({ s with queue := q2, currentIndex := newIdx }, true)

/-- The comprehension `[t for i, t in enumerate(queue) if i != current_idx]`
inside `shuffle_queue`. -/
def removeCurrent (queue : List Nat) (currentIdx : Int) : List Nat :=
  if 0 ≤ currentIdx then queue.eraseIdx currentIdx.toNat else queue

/-- `QueueManager.shuffle_queue` after `random.shuffle`: rebuild the queue
from the shuffled remainder, pinning the current track (if its index was in
range) at position 0.  The shuffle itself is nondeterministic; it enters the
step relation below as an arbitrary permutation of `removeCurrent`. -/
def shuffle_rebuild (s : QMState) (shuffled : List Nat) : QMState :=
  let currentTrack : Option Nat :=
    if 0 ≤ s.currentIndex ∧ s.currentIndex < (s.queue.length : Int) then
      pyIndex s.queue s.currentIndex
    else none
  match currentTrack with
  | some t => { s with queue := t :: shuffled, currentIndex := 0 }
  | none => { s with queue := shuffled, currentIndex := 0 }

/-- `QueueManager.get_next_track`: the next track honouring the loop mode
(1 = loop single, 2 = loop queue, otherwise no loop), together with the
updated state. -/
def get_next_track (s : QMState) : QMState × Option Nat :=
  if s.queue.isEmpty then (s, none)
  else if s.loopMode = 1 then
    if 0 ≤ s.currentIndex ∧ s.currentIndex < (s.queue.length : Int) then
      (s, pyIndex s.queue s.currentIndex)
    else
      ({ s with currentIndex := 0 }, s.queue.head?)
  else if s.loopMode = 2 then
    let nextIdx := (s.currentIndex + 1) % (s.queue.length : Int)
    ({ s with currentIndex := nextIdx }, pyIndex s.queue nextIdx)
  else
    let nextIdx := s.currentIndex + 1
    if nextIdx < (s.queue.length : Int) then
      ({ s with currentIndex := nextIdx }, pyIndex s.queue nextIdx)
    else (s, none)

/-- `QueueManager.get_previous_track`, symmetric to `get_next_track`. -/
def get_previous_track (s : QMState) : QMState × Option Nat :=
  if s.queue.isEmpty then (s, none)
  else if s.loopMode = 1 then
    if 0 ≤ s.currentIndex ∧ s.currentIndex < (s.queue.length : Int) then
      (s, pyIndex s.queue s.currentIndex)
    else
      ({ s with currentIndex := 0 }, s.queue.head?)
  else if s.loopMode = 2 then
    let prevIdx := (s.currentIndex - 1) % (s.queue.length : Int)
    ({ s with currentIndex := prevIdx }, pyIndex s.queue prevIdx)
  else
    let prevIdx := s.currentIndex - 1
    if 0 ≤ prevIdx then
      ({ s with currentIndex := prevIdx }, pyIndex s.queue prevIdx)
    else (s, none)

/-- `QueueManager.get_current_track`. -/
def get_current_track (s : QMState) : Option Nat :=
  if s.queue.isEmpty then none
  else if 0 ≤ s.currentIndex ∧ s.currentIndex < (s.queue.length : Int) then
    pyIndex s.queue s.currentIndex
  else none

/-- `QueueManager.set_loop_mode`; `none` models the `ValueError` raised on
a mode outside {0, 1, 2}. -/
def set_loop_mode (s : QMState) (mode : Nat) : Option QMState :=
  if mode = 0 ∨ mode = 1 ∨ mode = 2 then some { s with loopMode := mode } else none

/-- One observable `QueueManager` operation on a guild's state.  Shuffle is
a relation because `random.shuffle` may produce any permutation of the
remainder.  `setLoop` is included so every loop mode is reachable. -/
inductive QStep : QMState → QMState → Prop
  | add (s : QMState) (t : Nat) : QStep s (add_to_queue s t).1
  | addMultiple (s : QMState) (ts : List Nat) : QStep s (add_multiple_to_queue s ts).1
  | removeAt (s : QMState) (pos : Int) : QStep s (remove_from_queue s pos).1
  | move (s : QMState) (f t : Int) : QStep s (move_in_queue s f t).1
  | clear (s : QMState) : QStep s (clear_queue s).1
  | shuffle (s : QMState) (shuffled : List Nat) (hlen : 1 < s.queue.length)
      (hperm : shuffled.Perm (removeCurrent s.queue s.currentIndex)) :
      QStep s (shuffle_rebuild s shuffled)
  | getNext (s : QMState) : QStep s (get_next_track s).1
  | getPrev (s : QMState) : QStep s (get_previous_track s).1
  | setLoop (s s' : QMState) (m : Nat) (h : set_loop_mode s m = some s') : QStep s s'

/-- States reachable from the empty queue by `QueueManager` operations. -/
def QReachable (s : QMState) : Prop :=
  Relation.ReflTransGen QStep QMState.init s

/-- The inductive strengthening of the index invariant: the index is
nonnegative, below the length when the queue is non-empty, and 0 when the
queue is empty. -/
def QInv (s : QMState) : Prop :=
  0 ≤ s.currentIndex ∧ s.currentIndex < max 1 (s.queue.length : Int)

example : (add_to_queue QMState.init 5) = (⟨[5], 0, 0⟩, 1) := by decide
example : (remove_from_queue ⟨[1, 2, 3], 1, 0⟩ 0) = (⟨[2, 3], 0, 0⟩, some 1) := by decide
example : (move_in_queue ⟨[1, 2, 3], 0, 0⟩ 2 1) = (⟨[1, 3, 2], 0, 0⟩, true) := by decide
example : (get_next_track ⟨[10, 20], 1, 2⟩) = (⟨[10, 20], 0, 2⟩, some 10) := by decide
example : (get_previous_track ⟨[10, 20], 0, 2⟩) = (⟨[10, 20], 1, 2⟩, some 20) := by decide
example : (clear_queue ⟨[1, 2, 3], 1, 0⟩) = (⟨[2], 0, 0⟩, 2) := by decide

lemma pyPop_eq_some {l : List Nat} {i : Nat} {x : Nat} {l' : List Nat}
    (h : pyPop l i = some (x, l')) : i < l.length ∧ l' = l.eraseIdx i := by
  unfold pyPop at h
  cases hg : l[i]? with
  | none => rw [hg] at h; cases h
  | some y =>
    rw [hg] at h
    simp only [Option.some.injEq, Prod.mk.injEq] at h
    refine ⟨?_, h.2.symm⟩
    by_contra hc
    rw [List.getElem?_eq_none_iff.mpr (by omega)] at hg
    cases hg

lemma length_pos_of_not_isEmpty {l : List Nat} (h : ¬ l.isEmpty = true) : 0 < l.length := by
  cases l with
  | nil => simp at h
  | cons a t => simp

lemma qinv_add (s : QMState) (t : Nat) (h : QInv s) : QInv (add_to_queue s t).1 := by
  obtain ⟨h1, h2⟩ := h
  unfold QInv add_to_queue at *
  simp only [List.length_append, List.length_cons, List.length_nil] at *
  constructor
  · exact h1
  · push_cast
    omega

lemma qinv_addMultiple (s : QMState) (ts : List Nat) (h : QInv s) :
    QInv (add_multiple_to_queue s ts).1 := by
  obtain ⟨h1, h2⟩ := h
  unfold QInv add_multiple_to_queue at *
  simp only [List.length_append] at *
  constructor
  · exact h1
  · push_cast
    omega

lemma qinv_remove (s : QMState) (pos : Int) (h : QInv s) :
    QInv (remove_from_queue s pos).1 := by
  obtain ⟨h1, h2⟩ := h
  unfold remove_from_queue
  split
  · exact ⟨h1, h2⟩
  · rename_i hrange
    push_neg at hrange
    obtain ⟨hp0, hplen⟩ := hrange
    cases hp : pyPop s.queue pos.toNat with
    | none => exact ⟨h1, h2⟩
    | some pr =>
      obtain ⟨x, q⟩ := pr
      dsimp only
      obtain ⟨hlt, hq⟩ := pyPop_eq_some hp
      have hqlen : q.length = s.queue.length - 1 := by
        rw [hq]; exact List.length_eraseIdx_of_lt hlt
      unfold QInv
      dsimp only
      constructor
      · split_ifs <;> omega
      · split_ifs <;> omega

lemma qinv_move (s : QMState) (f t : Int) (h : QInv s) : QInv (move_in_queue s f t).1 := by
  obtain ⟨h1, h2⟩ := h
  unfold move_in_queue
  split
  · exact ⟨h1, h2⟩
  · rename_i hrange
    push_neg at hrange
    obtain ⟨hf0, hflen, ht0, htlen⟩ := hrange
    split
    · exact ⟨h1, h2⟩
    · cases hp : pyPop s.queue f.toNat with
      | none => exact ⟨h1, h2⟩
      | some pr =>
        obtain ⟨x, q1⟩ := pr
        dsimp only
        obtain ⟨hlt, hq⟩ := pyPop_eq_some hp
        have hq1len : q1.length = s.queue.length - 1 := by
          rw [hq]; exact List.length_eraseIdx_of_lt hlt
        have hq2len : (q1.insertIdx t.toNat x).length = q1.length + 1 :=
          List.length_insertIdx t.toNat q1 (by omega)
        unfold QInv
        dsimp only
        rw [hq2len]
        constructor
        · split_ifs <;> omega
        · split_ifs <;> omega

lemma qinv_clear (s : QMState) (_h : QInv s) : QInv (clear_queue s).1 := by
  unfold clear_queue
  cases hc : (if 0 ≤ s.currentIndex ∧ s.currentIndex < (s.queue.length : Int) then
      pyIndex s.queue s.currentIndex else none) with
  | some t =>
    exact ⟨le_refl 0, lt_of_lt_of_le one_pos (le_max_left _ _)⟩
  | none =>
    exact ⟨le_refl 0, lt_of_lt_of_le one_pos (le_max_left _ _)⟩

lemma qinv_shuffle (s : QMState) (shuffled : List Nat) (_h : QInv s) :
    QInv (shuffle_rebuild s shuffled) := by
  unfold shuffle_rebuild
  cases hc : (if 0 ≤ s.currentIndex ∧ s.currentIndex < (s.queue.length : Int) then
      pyIndex s.queue s.currentIndex else none) with
  | some t =>
    exact ⟨le_refl 0, lt_of_lt_of_le one_pos (le_max_left _ _)⟩
  | none =>
    exact ⟨le_refl 0, lt_of_lt_of_le one_pos (le_max_left _ _)⟩

lemma qinv_getNext (s : QMState) (h : QInv s) : QInv (get_next_track s).1 := by
  obtain ⟨h1, h2⟩ := h
  unfold get_next_track
  split
  · exact ⟨h1, h2⟩
  · rename_i hne
    have hlen : 0 < s.queue.length := length_pos_of_not_isEmpty hne
    split
    · split
      · exact ⟨h1, h2⟩
      · exact ⟨by omega, by dsimp only; omega⟩
    · split
      · have hm0 : (s.queue.length : Int) ≠ 0 := by omega
        have hmn := Int.emod_nonneg (s.currentIndex + 1) hm0
        have hml := Int.emod_lt_of_pos (s.currentIndex + 1)
          (b := (s.queue.length : Int)) (by omega)
        exact ⟨by dsimp only; omega, by dsimp only; omega⟩
      · dsimp only
        split
        · exact ⟨by dsimp only; omega, by dsimp only; omega⟩
        · exact ⟨h1, h2⟩

lemma qinv_getPrev (s : QMState) (h : QInv s) : QInv (get_previous_track s).1 := by
  obtain ⟨h1, h2⟩ := h
  unfold get_previous_track
  split
  · exact ⟨h1, h2⟩
  · rename_i hne
    have hlen : 0 < s.queue.length := length_pos_of_not_isEmpty hne
    split
    · split
      · exact ⟨h1, h2⟩
      · exact ⟨by omega, by dsimp only; omega⟩
    · split
      · have hm0 : (s.queue.length : Int) ≠ 0 := by omega
        have hmn := Int.emod_nonneg (s.currentIndex - 1) hm0
        have hml := Int.emod_lt_of_pos (s.currentIndex - 1)
          (b := (s.queue.length : Int)) (by omega)
        exact ⟨by dsimp only; omega, by dsimp only; omega⟩
      · dsimp only
        split
        · exact ⟨by dsimp only; omega, by dsimp only; omega⟩
        · exact ⟨h1, h2⟩

lemma qinv_setLoop (s s' : QMState) (m : Nat) (h : set_loop_mode s m = some s')
    (hi : QInv s) : QInv s' := by
  unfold set_loop_mode at h
  split at h
  · cases h
    exact hi
  · cases h

lemma qstep_preserves {s s' : QMState} (hs : QStep s s') (h : QInv s) : QInv s' := by
  cases hs with
  | add t => exact qinv_add _ t h
  | addMultiple ts => exact qinv_addMultiple _ ts h
  | removeAt pos => exact qinv_remove _ pos h
  | move f t => exact qinv_move _ f t h
  | clear => exact qinv_clear _ h
  | shuffle shuffled hlen hperm => exact qinv_shuffle _ shuffled h
  | getNext => exact qinv_getNext _ h
  | getPrev => exact qinv_getPrev _ h
  | setLoop s2 m hm => exact qinv_setLoop _ _ m hm h

lemma qreachable_inv {s : QMState} (h : QReachable s) : QInv s := by
  unfold QReachable at h
  induction h with
  | refl => exact ⟨le_refl 0, lt_of_lt_of_le one_pos (le_max_left _ _)⟩
  | tail hab hbc ih => exact qstep_preserves hbc ih

/-- C1: for every per-guild queue state reachable from the empty queue by a
sequence of add, addMultiple, removeAt, move, shuffle, clear, getNext and
getPrevious operations (setLoopMode included), whenever the queue is
non-empty the current index satisfies `0 ≤ currentIndex < len(queue)`. -/
theorem c1_reachable_index_in_range (s : QMState) (h : QReachable s)
    (hne : s.queue ≠ []) :
    0 ≤ s.currentIndex ∧ s.currentIndex < (s.queue.length : Int) := by
  obtain ⟨h1, h2⟩ := qreachable_inv h
  have hlen : 0 < s.queue.length := List.length_pos.mpr hne
  exact ⟨h1, by omega⟩

theorem c1_reachable_index_in_range_witness :
    0 ≤ (QMState.mk [5] 0 0).currentIndex ∧
      (QMState.mk [5] 0 0).currentIndex < ((QMState.mk [5] 0 0).queue.length : Int) :=
  c1_reachable_index_in_range ⟨[5], 0, 0⟩
    (Relation.ReflTransGen.single (QStep.add QMState.init 5)) (by decide)

/-!
The `remove` command of src/cogs/voice/queue_cog.py (`remove_from_queue`):
a 1-based user position, rejecting the currently playing index before the
`QueueManager` is consulted.
-/

inductive RemoveOutcome where
  | emptyQueue
  | currentTrack
  | removed (t : Nat)
  | invalidPosition
  deriving Repr, DecidableEq

/-- The `remove` command: empty-queue check, 1-based to 0-based adjustment,
rejection of the currently playing index, then
`QueueManager.remove_from_queue`. -/
def remove_command (s : QMState) (position : Int) : QMState × RemoveOutcome :=
  if s.queue.isEmpty then (s, .emptyQueue)
  else
    let index := position - 1
    if index = s.currentIndex then (s, .currentTrack)
    else
      match remove_from_queue s index with
      | (s', some t) => (s', .removed t)
      | (s', none) => (s', .invalidPosition)

/-!
Embedding of `MusicPlayer` (src/cogs/voice/player.py) and the skip logic of
`Voice.skip` (src/cogs/voice/voice_cog.py).  Wall-clock readings of
`time.time()` enter as explicit rational arguments.  A `Track`'s
`duration` string is "LIVE" exactly when its `duration_seconds` is `None`
(src/cogs/voice/track.py `_parse_duration`), so liveness is derived from
`durationSeconds`.  Fields of the Python objects that the modelled
operations never read or write (title, thumbnail, volume, messages, ...)
are omitted.
-/

structure PTrack where
  url : Nat
  requester : Nat
  durationSeconds : Option Int
  deriving Repr, DecidableEq

/-- `Track.duration == "LIVE"` holds iff `duration_seconds is None`. -/
def PTrack.durationIsLive (c : PTrack) : Bool := c.durationSeconds = none

inductive LoopMode where
  | off
  | song
  | queue
  deriving Repr, DecidableEq

structure MPState where
  current : Option PTrack
  hasVoiceClient : Bool
  vcPlaying : Bool
  vcPaused : Bool
  playbackStartTime : Option ℚ
  seekOffset : ℚ
  skipVotes : List Nat
  queue : List PTrack
  loopMode : LoopMode
  deriving DecidableEq

/-- What `get_progress` returns as its second component: a numeric total,
the "LIVE" sentinel, or Python `None` (unknown duration). -/
inductive TotalDisplay where
  | num (q : ℚ)
  | live
  | unknown
  deriving Repr, DecidableEq

/-- `MusicPlayer.get_progress`: position derived from the wall clock.  The
guard mirrors `not all([...])` (note a reference clock equal to 0 is falsy
in Python); the total is `duration_seconds or 0`; a positive total clamps
the position from above. -/
def get_progress (s : MPState) (now : ℚ) : ℚ × TotalDisplay :=
  match s.current, s.playbackStartTime with
  | some c, some start =>
    if s.hasVoiceClient = false ∨ start = 0 then
      (0, match c.durationSeconds with
          | none => .unknown
          | some d => .num d)
    else
      let total : Int := c.durationSeconds.getD 0
      let pos := (now - start) + s.seekOffset
      if 0 < total then (min pos (total : ℚ), .num total)
      else (pos, if c.durationIsLive then .live else .num 0)
  | some c, none =>
    (0, match c.durationSeconds with
        | none => .unknown
        | some d => .num d)
  | none, _ => (0, .num 0)

/-- `MusicPlayer.seek`: validation (current track present, voice client
present, not live, duration known and nonzero, `0 ≤ seconds < duration`),
then stop + re-resolve + play.  `resolveOk` is the outcome of the external
`YTDLSource.create_source` call; when it fails the exception handler
returns False having stopped the voice client but without touching
`current`, `seek_offset` or `playback_start_time`. -/
def seek (s : MPState) (seconds : Int) (now : ℚ) (resolveOk : Bool) :
    Bool × MPState :=
  match s.current with
  | none => (false, s)
  | some c =>
    if s.hasVoiceClient = false ∨ c.durationIsLive then (false, s)
    else
      match c.durationSeconds with
      | none => (false, s)
      | some d =>
        if d = 0 then (false, s)
        else if d ≤ seconds ∨ seconds < 0 then (false, s)
        else if resolveOk then
          (true,
            { s with
                current := some c,
                vcPlaying := true, vcPaused := false,
                playbackStartTime := some now,
                seekOffset := (seconds : ℚ) })
        else
          (false, { s with vcPlaying := false, vcPaused := false })

/-- `MusicPlayer.pause`: `vc.pause()` when the client is playing; nothing
else — in particular no progress field is touched. -/
def pause (s : MPState) : MPState :=
  if s.hasVoiceClient && s.vcPlaying then
    { s with vcPlaying := false, vcPaused := true }
  else s

/-- `MusicPlayer.resume`: `vc.resume()` when paused; no progress field is
touched. -/
def resume (s : MPState) : MPState :=
  if s.hasVoiceClient && s.vcPaused then
    { s with vcPlaying := true, vcPaused := false }
  else s

/-- `MusicPlayer.skip`: clear the vote set, then `vc.stop()` when playing
or paused. -/
def skip (s : MPState) : MPState :=
  let s1 := { s with skipVotes := ([] : List Nat) }
  if s1.hasVoiceClient && (s1.vcPlaying || s1.vcPaused) then
    { s1 with vcPlaying := false, vcPaused := false }
  else s1

/-- The next-track selection at the top of `MusicPlayer.player_loop`: with
loop_mode 'song' and a current track the same track is re-fetched
(successful re-resolution modelled), otherwise the head of the waiting
queue; the loop blocks when the queue is empty (no iteration, `none`). -/
def player_loop_pick (s : MPState) : Option (PTrack × List PTrack) :=
  match s.loopMode, s.current with
  | LoopMode.song, some c => some (c, s.queue)
  | _, _ =>
    match s.queue with
    | t :: rest => some (t, rest)
    | [] => none

/-- The playback-start section of `MusicPlayer.player_loop`: set `current`,
clear `skip_votes`, `vc.play(...)`, set the reference clock, reset the
seek offset. -/
def player_loop_start (s : MPState) (now : ℚ) : MPState × Option PTrack :=
  match player_loop_pick s with
  | none => (s, none)
  | some (t, rest) =>
    ({ s with
        current := some t,
        skipVotes := ([] : List Nat),
        queue := rest,
        vcPlaying := true, vcPaused := false,
        playbackStartTime := some now,
        seekOffset := 0 }, some t)

/-- The vote threshold of `Voice.skip`:
`required = max(1, len(channel_members) // 2 + 1)`. -/
def skip_required_votes (channelMembers : Nat) : Nat :=
  max 1 (channelMembers / 2 + 1)

inductive SkipOutcome where
  | nothingPlaying
  | skippedFreely
  | alreadyVoted (votes required : Nat)
  | voteSkipped (votes required : Nat)
  | voteAdded (votes required : Nat)
  deriving Repr, DecidableEq

/-- `Voice.skip` (src/cogs/voice/voice_cog.py): the requester of the
current track or a caller with manage-channels permission skips freely;
otherwise a vote is recorded and the skip fires once
`required - len(skip_votes) ≤ 0`. -/
def skip_command (s : MPState) (author : Nat) (manageChannels : Bool)
    (nonBotListeners : Nat) : MPState × SkipOutcome :=
  match s.current with
  | none => (s, .nothingPlaying)
  | some c =>
    if author = c.requester ∨ manageChannels = true then
      (skip s, .skippedFreely)
    else
      let required := skip_required_votes nonBotListeners
      if author ∈ s.skipVotes then
        (s, .alreadyVoted s.skipVotes.length required)
      else
        let votes := s.skipVotes ++ [author]
        if (required : Int) - votes.length ≤ 0 then
          (skip { s with skipVotes := votes }, .voteSkipped votes.length required)
        else
          ({ s with skipVotes := votes }, .voteAdded votes.length required)

/-!
Embedding of the inactivity machinery of `QueueManager`
(src/utils/music_queue.py): the per-guild timer entry, the voice
connection, and a counter of `idleDisconnect` notifications delivered to
presentation-layer callbacks.  The only registered callbacks in the code
are track-start and track-end callbacks; no code path emits an idle
notification, so no operation increments the counter.
-/

structure EngState where
  qm : QMState
  timerPending : Bool
  connected : Bool
  idleDisconnectCount : Nat
  deriving Repr, DecidableEq

/-- `QueueManager.add_to_queue` including its
`cancel_inactivity_timer` call. -/
def eng_add_to_queue (e : EngState) (t : Nat) : EngState × Int :=
  let r := add_to_queue e.qm t
  ({ e with qm := r.1, timerPending := false }, r.2)

/-- `QueueManager.start_inactivity_timer`: cancel any existing timer and
create a new one. -/
def start_inactivity_timer (e : EngState) : EngState :=
  { e with timerPending := true }

/-- `QueueManager._inactivity_countdown` after the sleep completes (the
timer fires): disconnect when connected, then drop the timer entry in the
`finally` block.  Queue, current index and loop mode are untouched, and no
notification is delivered (the code only writes a log line). -/
def inactivity_timer_expire (e : EngState) : EngState :=
  { e with connected := false, timerPending := false }

example : skip_required_votes 3 = 2 := by decide
example : skip_required_votes 4 = 3 := by decide
example : skip_required_votes 1 = 1 := by decide

lemma isEmpty_eq_false_of_ne_nil {l : List Nat} (h : l ≠ []) : l.isEmpty = false := by
  cases l with
  | nil => exact absurd rfl h
  | cons a t => rfl

lemma pyPop_of_lt {l : List Nat} {i : Nat} (h : i < l.length) :
    pyPop l i = some (l[i], l.eraseIdx i) := by
  unfold pyPop
  rw [List.getElem?_eq_getElem h]

lemma pyIndex_eq {l : List Nat} {i : Int} (h0 : 0 ≤ i) (hb : i.toNat < l.length) :
    pyIndex l i = some l[i.toNat] := by
  unfold pyIndex
  rw [if_pos h0, List.getElem?_eq_getElem hb]

lemma remove_from_queue_in_range (s : QMState) (pos : Int) (h0 : 0 ≤ pos)
    (hlt : pos < (s.queue.length : Int)) :
    (remove_from_queue s pos).2 = pyIndex s.queue pos ∧
    (remove_from_queue s pos).1.queue = s.queue.eraseIdx pos.toNat := by
  have hb : pos.toNat < s.queue.length := by omega
  unfold remove_from_queue
  rw [if_neg (by omega : ¬(pos < 0 ∨ (s.queue.length : Int) ≤ pos))]
  rw [pyPop_of_lt hb]
  exact ⟨by rw [pyIndex_eq h0 hb], rfl⟩

/-- C10: `move_in_queue` with the source position equal to the currently
playing index returns False and leaves the whole state (queue order and
current index) unchanged, whatever the destination position. -/
theorem c10_move_current_rejected (s : QMState) (toPos : Int) :
    move_in_queue s s.currentIndex toPos = (s, false) := by
  unfold move_in_queue
  split
  · rfl
  · simp

/-- C2 counterexample: with 4 non-bot listeners the code requires
`max(1, 4 // 2 + 1) = 3` votes, while the claimed formula
`max(1, ceil(4 / 2))` gives 2. -/
theorem c2_counterexample_required_votes :
    ¬ (skip_required_votes 4 = max 1 ((4 + 1) / 2)) := by decide

/-- C2 (amended): the required vote count is the strict majority
`n / 2 + 1` (the `max` with 1 is redundant); with 3 non-bot listeners one
fresh vote does not trigger a skip and a second fresh vote does; the
requester of the current track or a caller with manage-channels
permission skips freely, bypassing the threshold. -/
theorem c2_skip_vote_threshold (n : Nat) :
    skip_required_votes n = n / 2 + 1 ∧
    (∀ (s : MPState) (c : PTrack) (a : Nat) (m : Bool),
      s.current = some c → (a = c.requester ∨ m = true) →
      (skip_command s a m n).2 = SkipOutcome.skippedFreely) ∧
    (∀ (s : MPState) (c : PTrack) (a : Nat),
      s.current = some c → a ≠ c.requester → s.skipVotes = [] →
      (skip_command s a false 3).2 = SkipOutcome.voteAdded 1 2) ∧
    (∀ (s : MPState) (c : PTrack) (a b : Nat),
      s.current = some c → a ≠ c.requester → b ≠ c.requester → a ≠ b →
      s.skipVotes = [] →
      (skip_command (skip_command s a false 3).1 b false 3).2 =
        SkipOutcome.voteSkipped 2 2) := by
  refine ⟨by unfold skip_required_votes; omega, ?_, ?_, ?_⟩
  · intro s c a m hc h
    simp only [skip_command, hc]
    rw [if_pos h]
  · intro s c a hc ha hv
    simp only [skip_command, hc]
    rw [if_neg (by simp [ha])]
    rw [hv]
    simp [skip_required_votes]
  · intro s c a b hc ha hb hab hv
    have h1 : (skip_command s a false 3).1 =
        { s with skipVotes := s.skipVotes ++ [a] } := by
      simp only [skip_command, hc]
      rw [if_neg (by simp [ha])]
      rw [hv]
      simp [skip_required_votes]
    rw [h1]
    simp only [skip_command, hc]
    rw [if_neg (by simp [hb])]
    rw [hv]
    simp [skip_required_votes, hab, Ne.symm hab]

theorem c2_skip_vote_threshold_witness :
    (skip_command
      { current := some ⟨0, 7, some 100⟩, hasVoiceClient := true,
        vcPlaying := true, vcPaused := false, playbackStartTime := some 1,
        seekOffset := 0, skipVotes := [], queue := [], loopMode := .off }
      1 false 3).2 = SkipOutcome.voteAdded 1 2 :=
  (c2_skip_vote_threshold 3).2.2.1 _ ⟨0, 7, some 100⟩ 1 rfl (by decide) rfl

/-- C9 counterexample: when the inactivity timer fires on a guild whose
queue holds one track, the queue survives (the QueueManager is not
destroyed) and no idleDisconnect notification is emitted, contradicting
the claimed destruction plus single notification. -/
theorem c9_counterexample :
    ¬ ((inactivity_timer_expire ⟨⟨[7], 0, 0⟩, true, true, 0⟩).qm.queue = [] ∧
        (inactivity_timer_expire ⟨⟨[7], 0, 0⟩, true, true, 0⟩).idleDisconnectCount = 1) := by
  decide

/-- C9 (amended): adding a track cancels any pending inactivity timer;
when the timer instead fires, the engine disconnects the voice connection
and drops the guild's timer entry, but the guild's queue state is retained
unchanged and no idleDisconnect notification is emitted. -/
theorem c9_inactivity_timer (e : EngState) (t : Nat) :
    (eng_add_to_queue e t).1.timerPending = false ∧
    (e.timerPending = true →
      (inactivity_timer_expire e).connected = false ∧
      (inactivity_timer_expire e).timerPending = false ∧
      (inactivity_timer_expire e).qm = e.qm ∧
      (inactivity_timer_expire e).idleDisconnectCount = e.idleDisconnectCount) :=
  ⟨rfl, fun _ => ⟨rfl, rfl, rfl, rfl⟩⟩

theorem c9_inactivity_timer_witness :
    (inactivity_timer_expire ⟨⟨[7], 0, 0⟩, true, true, 0⟩).connected = false ∧
    (inactivity_timer_expire ⟨⟨[7], 0, 0⟩, true, true, 0⟩).timerPending = false ∧
    (inactivity_timer_expire ⟨⟨[7], 0, 0⟩, true, true, 0⟩).qm = ⟨[7], 0, 0⟩ ∧
    (inactivity_timer_expire ⟨⟨[7], 0, 0⟩, true, true, 0⟩).idleDisconnectCount = 0 :=
  (c9_inactivity_timer ⟨⟨[7], 0, 0⟩, true, true, 0⟩ 5).2 rfl

/-- C4: the `remove` command rejects the currently playing index with no
state mutation; at any other in-range index it succeeds, returns the track
stored at that index, and shrinks the queue by exactly one. -/
theorem c4_remove_track_policy (s : QMState) (position : Int)
    (hne : s.queue ≠ []) :
    (position - 1 = s.currentIndex →
      remove_command s position = (s, RemoveOutcome.currentTrack)) ∧
    (position - 1 ≠ s.currentIndex → 0 ≤ position - 1 →
      position - 1 < (s.queue.length : Int) →
      ∃ t, pyIndex s.queue (position - 1) = some t ∧
        (remove_command s position).2 = RemoveOutcome.removed t ∧
        (remove_command s position).1.queue.length = s.queue.length - 1) := by
  have hempty : s.queue.isEmpty = false := isEmpty_eq_false_of_ne_nil hne
  constructor
  · intro heq
    unfold remove_command
    rw [hempty]
    simp only [Bool.false_eq_true, if_false]
    rw [if_pos heq]
  · intro hne2 h0 hlt
    have hb : (position - 1).toNat < s.queue.length := by omega
    obtain ⟨h2, h3⟩ := remove_from_queue_in_range s (position - 1) h0 hlt
    refine ⟨s.queue[(position - 1).toNat], pyIndex_eq h0 hb, ?_⟩
    unfold remove_command
    rw [hempty]
    simp only [Bool.false_eq_true, if_false]
    rw [if_neg hne2]
    rw [pyIndex_eq h0 hb] at h2
    rcases hq : remove_from_queue s (position - 1) with ⟨s', r⟩
    rw [hq] at h2 h3
    dsimp only at h2 h3
    subst h2
    constructor
    · rfl
    · dsimp only
      rw [h3, List.length_eraseIdx_of_lt hb]

theorem c4_remove_track_policy_witness :
    (remove_command ⟨[1, 2, 3], 0, 0⟩ 1 = (⟨[1, 2, 3], 0, 0⟩, RemoveOutcome.currentTrack)) ∧
    ∃ t, pyIndex ([1, 2, 3] : List Nat) 1 = some t ∧
      (remove_command ⟨[1, 2, 3], 0, 0⟩ 2).2 = RemoveOutcome.removed t ∧
      (remove_command ⟨[1, 2, 3], 0, 0⟩ 2).1.queue.length = ([1, 2, 3] : List Nat).length - 1 :=
  ⟨(c4_remove_track_policy ⟨[1, 2, 3], 0, 0⟩ 1 (by decide)).1 (by decide),
   (c4_remove_track_policy ⟨[1, 2, 3], 0, 0⟩ 2 (by decide)).2
      (by decide) (by decide) (by decide)⟩

/-- C3 counterexample: at queue [10, 20] with current index 1 and loop
mode 2 ("all"), the claim demands a fresh copy of the finished track
appended to the tail (length 3) with the index advancing past the old
end; `get_next_track` instead leaves the queue at length 2 and wraps the
index to 0. -/
theorem c3_counterexample :
    ¬ ((get_next_track ⟨[10, 20], 1, 2⟩).1.queue.length = 3 ∧
        (get_next_track ⟨[10, 20], 1, 2⟩).1.currentIndex = 2) := by decide

/-- C3 (amended): next-track selection by loop mode in
`QueueManager.get_next_track`, for a non-empty queue with an in-range
index: loop single returns the same current track with the state
unchanged; loop all advances the index by one modulo the queue length
(wrapping to the start) with the queue itself unchanged — no copy is
appended; loop off advances by one, and past the end returns no track and
leaves the state unchanged (the caller then starts the inactivity
countdown). -/
theorem c3_next_track_loop_modes (s : QMState) (hne : s.queue ≠ [])
    (hidx : 0 ≤ s.currentIndex ∧ s.currentIndex < (s.queue.length : Int)) :
    (s.loopMode = 1 → get_next_track s = (s, pyIndex s.queue s.currentIndex)) ∧
    (s.loopMode = 2 →
      (get_next_track s).1.queue = s.queue ∧
      (get_next_track s).1.currentIndex =
        (s.currentIndex + 1) % (s.queue.length : Int) ∧
      (get_next_track s).2 =
        pyIndex s.queue ((s.currentIndex + 1) % (s.queue.length : Int))) ∧
    (s.loopMode ≠ 1 → s.loopMode ≠ 2 →
      (s.currentIndex + 1 < (s.queue.length : Int) →
        get_next_track s =
          ({ s with currentIndex := s.currentIndex + 1 },
            pyIndex s.queue (s.currentIndex + 1))) ∧
      ((s.queue.length : Int) ≤ s.currentIndex + 1 →
        get_next_track s = (s, none))) := by
  have hempty : s.queue.isEmpty = false := isEmpty_eq_false_of_ne_nil hne
  refine ⟨?_, ?_, ?_⟩
  · intro h1
    unfold get_next_track
    rw [hempty]
    simp only [Bool.false_eq_true, if_false]
    rw [if_pos h1, if_pos hidx]
  · intro h2
    unfold get_next_track
    rw [hempty]
    simp only [Bool.false_eq_true, if_false]
    rw [if_neg (by omega), if_pos h2]
    exact ⟨rfl, rfl, rfl⟩
  · intro h1 h2
    unfold get_next_track
    rw [hempty]
    simp only [Bool.false_eq_true, if_false]
    rw [if_neg h1, if_neg h2]
    constructor
    · intro hlt
      rw [if_pos hlt]
    · intro hge
      rw [if_neg (by omega)]

theorem c3_next_track_loop_modes_witness :
    (get_next_track ⟨[10, 20], 1, 2⟩).1.queue = [10, 20] := by
  have h := c3_next_track_loop_modes ⟨[10, 20], 1, 2⟩ (by decide) (by decide)
  exact (h.2.1 rfl).1

/-- C5: for a current non-live track with known duration d, seek(t)
succeeds (given the external re-resolution succeeds) exactly when
`0 ≤ t < d`; a seek on a live track is rejected; every rejected seek
leaves the current track, the seek offset and the playback reference
clock unmodified. -/
theorem c5_seek_validation (s : MPState) (c : PTrack) (d seconds : Int)
    (now : ℚ) (resolveOk : Bool)
    (hcur : s.current = some c) (hvc : s.hasVoiceClient = true)
    (hdur : c.durationSeconds = some d) :
    ((seek s seconds now true).1 = true ↔ (0 ≤ seconds ∧ seconds < d)) ∧
    ((seek s seconds now resolveOk).1 = false →
      (seek s seconds now resolveOk).2.current = s.current ∧
      (seek s seconds now resolveOk).2.seekOffset = s.seekOffset ∧
      (seek s seconds now resolveOk).2.playbackStartTime = s.playbackStartTime) ∧
    (∀ (s2 : MPState) (c2 : PTrack), s2.current = some c2 →
      c2.durationIsLive = true → (seek s2 seconds now resolveOk).1 = false) := by
  have hlive : c.durationIsLive = false := by
    simp [PTrack.durationIsLive, hdur]
  refine ⟨?_, ?_, ?_⟩
  · unfold seek
    rw [hcur]
    dsimp only
    rw [if_neg (by simp [hvc, hlive]), hdur]
    dsimp only
    by_cases hd : d = 0
    · rw [if_pos hd]
      simp
      omega
    · rw [if_neg hd]
      by_cases hr : d ≤ seconds ∨ seconds < 0
      · rw [if_pos hr]
        simp
        omega
      · rw [if_neg hr, if_pos rfl]
        simp
        omega
  · unfold seek
    rw [hcur]
    dsimp only
    rw [if_neg (by simp [hvc, hlive]), hdur]
    dsimp only
    split_ifs <;> intro hf
    · exact ⟨hcur, rfl, rfl⟩
    · exact ⟨hcur, rfl, rfl⟩
    · simp at hf
    · exact ⟨rfl, rfl, rfl⟩
  · intro s2 c2 hc2 hl2
    unfold seek
    rw [hc2]
    dsimp only
    rw [if_pos (Or.inr hl2)]

theorem c5_seek_validation_witness :
    (seek
      { current := some ⟨0, 7, some 100⟩, hasVoiceClient := true,
        vcPlaying := true, vcPaused := false, playbackStartTime := some 1,
        seekOffset := 0, skipVotes := [], queue := [], loopMode := .off }
      50 2 true).1 = true :=
  ((c5_seek_validation _ ⟨0, 7, some 100⟩ 100 50 2 true rfl rfl rfl).1).mpr
    (by decide)

/-- C6 counterexample: in a paused state (reference clock 5, offset 0,
duration 100) a progress read at time 10 returns 5 while a read at time 20
returns 15 — the elapsed counter is not frozen by pause, refuting the
claim that all progress reads taken while paused return the same
position. -/
theorem c6_counterexample :
    ¬ ((get_progress
          { current := some ⟨0, 7, some 100⟩, hasVoiceClient := true,
            vcPlaying := false, vcPaused := true, playbackStartTime := some 5,
            seekOffset := 0, skipVotes := [], queue := [], loopMode := .off }
          10).1 =
        (get_progress
          { current := some ⟨0, 7, some 100⟩, hasVoiceClient := true,
            vcPlaying := false, vcPaused := true, playbackStartTime := some 5,
            seekOffset := 0, skipVotes := [], queue := [], loopMode := .off }
          20).1) := by
  simp [get_progress, PTrack.durationIsLive]
  norm_num

/-- C6 (amended): `pause` touches no progress field, so the elapsed
counter keeps advancing with the wall clock while paused; a second
`pause` is a no-op leaving the client paused (idempotent, nothing is
double-counted because nothing is counted); `resume` leaves the reference
clock and seek offset unchanged, so time spent paused is included in
subsequent progress reads; the progress computation is entirely
independent of the paused flag. -/
theorem c6_pause_resume_no_freeze (s : MPState) (now : ℚ) (b : Bool) :
    (pause s).playbackStartTime = s.playbackStartTime ∧
    (pause s).seekOffset = s.seekOffset ∧
    pause (pause s) = pause s ∧
    (resume s).playbackStartTime = s.playbackStartTime ∧
    (resume s).seekOffset = s.seekOffset ∧
    get_progress { s with vcPaused := b } now = get_progress s now := by
  refine ⟨?_, ?_, ?_, ?_, ?_, ?_⟩
  · unfold pause
    split <;> rfl
  · unfold pause
    split <;> rfl
  · unfold pause
    by_cases h : (s.hasVoiceClient && s.vcPlaying) = true
    · rw [if_pos h]
      rw [if_neg (by simp)]
    · rw [if_neg h, if_neg h]
  · unfold resume
    split <;> rfl
  · unfold resume
    split <;> rfl
  · rfl

/-- C7: after a successful seek to t on a non-live track of known duration
d, a progress read within one second returns a position within 1 second
of t; the reported position is (now − sessionStartClock) + seekOffset
clamped to the interval [0, d]. -/
theorem c7_seek_progress_roundtrip (s : MPState) (c : PTrack) (d t : Int)
    (now0 now1 : ℚ)
    (hcur : s.current = some c) (hvc : s.hasVoiceClient = true)
    (hdur : c.durationSeconds = some d)
    (ht0 : 0 ≤ t) (ht1 : t < d)
    (hn0 : 0 < now0) (hn1 : now0 ≤ now1) (hn2 : now1 - now0 ≤ 1) :
    (seek s t now0 true).1 = true ∧
    (get_progress (seek s t now0 true).2 now1).1 =
      min ((now1 - now0) + (t : ℚ)) (d : ℚ) ∧
    |(get_progress (seek s t now0 true).2 now1).1 - (t : ℚ)| ≤ 1 ∧
    0 ≤ (get_progress (seek s t now0 true).2 now1).1 ∧
    (get_progress (seek s t now0 true).2 now1).1 ≤ (d : ℚ) := by
  have hlive : c.durationIsLive = false := by
    simp [PTrack.durationIsLive, hdur]
  have hseek : seek s t now0 true =
      (true,
        { s with
            current := some c,
            vcPlaying := true, vcPaused := false,
            playbackStartTime := some now0,
            seekOffset := (t : ℚ) }) := by
    unfold seek
    rw [hcur]
    dsimp only
    rw [if_neg (by simp [hvc, hlive]), hdur]
    dsimp only
    rw [if_neg (by omega), if_neg (by omega), if_pos rfl]
  rw [hseek]
  have hprog : (get_progress
      ({ s with
          current := some c,
          vcPlaying := true, vcPaused := false,
          playbackStartTime := some now0,
          seekOffset := (t : ℚ) } : MPState) now1) =
      (min ((now1 - now0) + (t : ℚ)) ((d : Int) : ℚ), TotalDisplay.num d) := by
    unfold get_progress
    dsimp only
    rw [if_neg (by simp [hvc]; exact ne_of_gt hn0)]
    rw [hdur]
    dsimp only [Option.getD]
    rw [if_pos (by exact_mod_cast (by omega : (0 : Int) < d))]
  rw [hprog]
  dsimp only
  have hc0 : (0 : ℚ) ≤ (t : ℚ) := by exact_mod_cast ht0
  have hc1 : (t : ℚ) < (d : ℚ) := by exact_mod_cast ht1
  refine ⟨rfl, rfl, ?_, ?_, min_le_right _ _⟩
  · rcases le_total ((now1 - now0) + (t : ℚ)) ((d : Int) : ℚ) with hle | hge
    · rw [min_eq_left hle]
      rw [abs_le]
      constructor <;> linarith
    · rw [min_eq_right hge]
      rw [abs_le]
      constructor <;> linarith
  · exact le_min (by linarith) (by linarith)

theorem c7_seek_progress_roundtrip_witness :
    (seek
      { current := some ⟨0, 7, some 100⟩, hasVoiceClient := true,
        vcPlaying := true, vcPaused := false, playbackStartTime := some 1,
        seekOffset := 0, skipVotes := [], queue := [], loopMode := .off }
      50 2 true).1 = true ∧
    (get_progress
      (seek
        { current := some ⟨0, 7, some 100⟩, hasVoiceClient := true,
          vcPlaying := true, vcPaused := false, playbackStartTime := some 1,
          seekOffset := 0, skipVotes := [], queue := [], loopMode := .off }
        50 2 true).2 2).1 = min ((2 - 2) + (50 : ℚ)) (100 : ℚ) :=
  ⟨(c7_seek_progress_roundtrip _ ⟨0, 7, some 100⟩ 100 50 2 2 rfl rfl rfl
      (by decide) (by decide) (by decide) (le_refl 2) (by simp)).1,
   (c7_seek_progress_roundtrip _ ⟨0, 7, some 100⟩ 100 50 2 2 rfl rfl rfl
      (by decide) (by decide) (by decide) (le_refl 2) (by simp)).2.1⟩

/-- C8: the playback-start section of the player loop — the unique path by
which a track becomes current, whether following a natural end, a forced
skip or a threshold-reached vote skip — clears the skip-vote set, so the
set is empty at the moment any track starts playing; `MusicPlayer.skip`
clears it as well, and starting after a skip still yields an empty set. -/
theorem c8_votes_cleared_on_track_change (s : MPState) (now : ℚ) (t : PTrack)
    (h : (player_loop_start s now).2 = some t) :
    (player_loop_start s now).1.skipVotes = [] ∧
    (player_loop_start s now).1.current = some t ∧
    (skip s).skipVotes = [] ∧
    (player_loop_start (skip s) now).1.skipVotes = [] := by
  have hskip : (skip s).skipVotes = [] := by
    unfold skip
    dsimp only
    split <;> rfl
  unfold player_loop_start at h ⊢
  cases hp : player_loop_pick s with
  | none =>
    rw [hp] at h
    simp at h
  | some pr =>
    obtain ⟨t2, rest⟩ := pr
    rw [hp] at h
    dsimp only at h ⊢
    refine ⟨rfl, h, hskip, ?_⟩
    cases hp2 : player_loop_pick (skip s) with
    | none => exact hskip
    | some pr2 =>
      obtain ⟨t3, rest3⟩ := pr2
      rfl

theorem c8_votes_cleared_on_track_change_witness :
    (player_loop_start
      { current := none, hasVoiceClient := true,
        vcPlaying := false, vcPaused := false, playbackStartTime := none,
        seekOffset := 0, skipVotes := [4, 9], queue := [⟨0, 7, some 100⟩],
        loopMode := .off }
      3).1.skipVotes = [] :=
  (c8_votes_cleared_on_track_change
    { current := none, hasVoiceClient := true,
      vcPlaying := false, vcPaused := false, playbackStartTime := none,
      seekOffset := 0, skipVotes := [4, 9], queue := [⟨0, 7, some 100⟩],
      loopMode := .off }
    3 ⟨0, 7, some 100⟩ rfl).1
